import Mathlib

/-!
Verification of the personaltrainer backend handlers: the email relay
(src/api/send-email.js), the blog-post persistence handler and the
testimonial persistence handler, shallowly embedded over lists of
characters. Regex-based global replacements are compiled to explicit
scanning functions; outbound HTTPS calls (GitHub contents API, email
provider) are modelled as an effect trace together with oracles for the
data the calls would return. Buffer.from(data, 'base64') is modelled by
an abstract decoding oracle returning the decoded byte length, or none
for a failed decode, matching how the handlers consume it.
-/

namespace PTrainer

/-- JavaScript whitespace set: the characters matched by the regex class
backslash-s and trimmed by String.prototype.trim / trimEnd. -/
def isJsWhite (c : Char) : Bool :=
  let n := c.toNat
  n == 9 || n == 10 || n == 11 || n == 12 || n == 13 || n == 32 ||
  n == 160 || n == 0x1680 || (0x2000 ≤ n && n ≤ 0x200A) ||
  n == 0x2028 || n == 0x2029 || n == 0x202F || n == 0x205F ||
  n == 0x3000 || n == 0xFEFF

/-- Regex word character class: ASCII letters, digits and underscore. -/
def isWordChar (c : Char) : Bool :=
  let n := c.toNat
  (97 ≤ n && n ≤ 122) || (65 ≤ n && n ≤ 90) || (48 ≤ n && n ≤ 57) || n == 95

/-- Control characters removed by sanitizeInput: x00-x08, x0B-x0C,
x0E-x1F and x7F (newline, tab and carriage return are kept). -/
def isRemovedCtrl (c : Char) : Bool :=
  let n := c.toNat
  n ≤ 8 || (11 ≤ n && n ≤ 12) || (14 ≤ n && n ≤ 31) || n == 127

/-- ASCII lowercasing of a single character, as applied by
String.prototype.toLowerCase on the ASCII range. -/
def lowerAscii (c : Char) : Char :=
  if 65 ≤ c.toNat && c.toNat ≤ 90 then Char.ofNat (c.toNat + 32) else c

/-- Drop leading JS whitespace. -/
def ltrimL (l : List Char) : List Char := l.dropWhile isJsWhite

/-- Drop trailing JS whitespace (String.prototype.trimEnd). -/
def rtrimL (l : List Char) : List Char := (l.reverse.dropWhile isJsWhite).reverse

/-- Drop surrounding JS whitespace (String.prototype.trim). -/
def jsTrimL (l : List Char) : List Char := ltrimL (rtrimL l)

/-- String.prototype.trim on strings. -/
def jsTrim (s : String) : String := String.mk (jsTrimL s.data)

/-- String.prototype.trimEnd on strings. -/
def jsTrimEnd (s : String) : String := String.mk (rtrimL s.data)

/-- Position of the rest of the input after the first close angle
bracket, when one exists. -/
def afterGt : List Char → Option (List Char)
  | [] => none
  | c :: r => if c == '>' then some r else afterGt r

/-- One step bound by fuel of the global replacement of the regex
matching a tag: an open angle bracket, any run without close brackets,
then a close bracket, replaced by the empty string. Fuel at least the
input length makes the scan total. -/
def stripTagsF : Nat → List Char → List Char
  | 0, l => l
  | _ + 1, [] => []
  | f + 1, c :: r =>
    if c == '<' then
      match afterGt r with
      | some rest => stripTagsF f rest
      | none => c :: stripTagsF f r
    else c :: stripTagsF f r

/-- Global removal of complete HTML tags, the first replacement in
sanitizeInput. -/
def stripTags (l : List Char) : List Char := stripTagsF l.length l

/-- Case-insensitive prefix test against a lowercase ASCII pattern. -/
def startsWithLower : List Char → List Char → Bool
  | [], _ => true
  | _ :: _, [] => false
  | a :: ps, b :: ls => (lowerAscii b == a) && startsWithLower ps ls

/-- The literal pattern of the second sanitizeInput replacement. -/
def jsPat : List Char := "javascript:".data

/-- Fueled global case-insensitive removal of the javascript: pattern;
a match consumes eleven characters and scanning resumes after it. -/
def stripJsF : Nat → List Char → List Char
  | 0, l => l
  | _ + 1, [] => []
  | f + 1, c :: r =>
    if startsWithLower jsPat (c :: r) then stripJsF f (r.drop 10)
    else c :: stripJsF f r

/-- Global case-insensitive removal of the javascript: pattern. -/
def stripJs (l : List Char) : List Char := stripJsF l.length l

/-- Length of the match of the inline-event-handler regex (letters o n,
one or more word characters, optional whitespace, equals sign) at the
head of the input, or none. Greedy runs followed by the forced equals
sign are exactly the backtracking semantics of the regex here. -/
def onMatchLen (l : List Char) : Option Nat :=
  match l with
  | a :: b :: rest =>
    if lowerAscii a == 'o' && lowerAscii b == 'n' then
      let w := rest.takeWhile isWordChar
      if w.length == 0 then none
      else
        let r2 := rest.dropWhile isWordChar
        let sp := r2.takeWhile isJsWhite
        match r2.dropWhile isJsWhite with
        | c :: _ => if c == '=' then some (2 + w.length + sp.length + 1) else none
        | [] => none
    else none
  | _ => none

/-- Fueled global removal of inline event handler patterns. -/
def stripOnF : Nat → List Char → List Char
  | 0, l => l
  | _ + 1, [] => []
  | f + 1, c :: r =>
    match onMatchLen (c :: r) with
    | some n => stripOnF f ((c :: r).drop n)
    | none => c :: stripOnF f r

/-- Global removal of inline event handler patterns. -/
def stripOn (l : List Char) : List Char := stripOnF l.length l

/-- Removal of the control characters listed in isRemovedCtrl. -/
def stripCtrl (l : List Char) : List Char := l.filter (fun c => !isRemovedCtrl c)

/-- The sanitizeInput pipeline on character lists: tag removal, then
javascript: removal, then event-handler removal, then control-character
removal, then trim. -/
def sanitizeL (l : List Char) : List Char :=
  jsTrimL (stripCtrl (stripOn (stripJs (stripTags l))))

/-- sanitizeInput from send-email.js on strings. -/
def sanitizeInput (s : String) : String := String.mk (sanitizeL s.data)

/-- Entity replacement for one character in escapeHtml. -/
def escHtmlChar (c : Char) : List Char :=
  if c == '&' then "&amp;".data
  else if c == '<' then "&lt;".data
  else if c == '>' then "&gt;".data
  else if c == '"' then "&quot;".data
  else if c == '\'' then "&#039;".data
  else [c]

/-- escapeHtml from send-email.js. -/
def escapeHtml (s : String) : String :=
  String.mk (s.data.foldr (fun c acc => escHtmlChar c ++ acc) [])

/-- The email address test from send-email.js: anchored local part
without whitespace or at signs, one at sign, and a domain containing a
dot with at least one character on each side, with at most 254
characters overall. -/
def validateEmail (s : String) : Bool :=
  let l := s.data
  let A := l.takeWhile (fun c => c != '@')
  match l.dropWhile (fun c => c != '@') with
  | [] => false
  | _ :: D =>
    !A.isEmpty && D.all (fun c => c != '@') &&
    l.all (fun c => !isJsWhite c) &&
    (D.drop 1).dropLast.contains '.' &&
    decide (l.length ≤ 254)

/-- Case-insensitive substring test against a lowercase pattern. -/
def hasSubCI (p : List Char) : List Char → Bool
  | [] => startsWithLower p []
  | c :: r => startsWithLower p (c :: r) || hasSubCI p r

/-- Whether the inline-event-handler regex matches anywhere. -/
def hasOnPat : List Char → Bool
  | [] => false
  | c :: r => (onMatchLen (c :: r)).isSome || hasOnPat r

/-- The denylist test of send-email.js: any of the suspicious patterns
matching the input. -/
def suspicious (l : List Char) : Bool :=
  hasSubCI "<script".data l || hasSubCI "javascript:".data l ||
  hasOnPat l || hasSubCI "data:text/html".data l ||
  hasSubCI "vbscript:".data l || hasSubCI "<iframe".data l ||
  hasSubCI "<object".data l || hasSubCI "<embed".data l

/-- JavaScript truthiness of an optional string field. -/
def truthy : Option String → Bool
  | none => false
  | some s => !s.isEmpty

/-- Content written by a create-or-update file call: a text document or
the decoded image bytes. -/
inductive WContent where
  | text (s : String)
  | bin
deriving DecidableEq

/-- One outbound call made by a handler, in order: a contents fetch, a
contents write carrying the supplied revision marker, or the email
provider call with the transmitted fields. -/
inductive Eff where
  | fetch (path : String)
  | put (path : String) (sha : Option String) (c : WContent)
  | provider (toAddr subject text : String) (replyTo : Option String)
deriving DecidableEq

/-- Handler outcome: HTTP status, ordered outbound calls, and the
storage path reported in the response body when there is one. -/
structure HResult where
  status : Nat
  effects : List Eff
  path : Option String
deriving DecidableEq

/-- Parsed body of a send-email request. -/
structure EmailReq where
  toAddr : Option String
  subject : Option String
  text : Option String
  replyTo : Option String
deriving DecidableEq

/-- Optional image payload carried by the persistence requests. -/
structure ImgPayload where
  data : Option String
  extension : Option String
deriving DecidableEq

/-- Parsed body of a save-post request. -/
structure PostReq where
  title : Option String
  date : Option String
  slug : Option String
  excerpt : Option String
  content : Option String
  igLink : Option String
  image : Option ImgPayload
deriving DecidableEq

/-- Parsed body of a save-testimonial request. -/
structure TReq where
  name : Option String
  category : Option String
  content : Option String
  instagram : Option String
  image : Option ImgPayload
deriving DecidableEq

/-- Oracle for the backing repository: revision marker and content
returned by a get-file call per path, and whether a write to a path
succeeds. -/
structure Store where
  sha : String → Option String
  content : String → Option String
  putOk : String → Bool

/-- Oracle for the email provider response. -/
structure ProviderResp where
  ok : Bool
  status : Nat

/-- The send-email handler on a POST request with configuration
present: required-field check, sanitization, address and length
validation, denylist check on the sanitized fields, then one provider
call whose outcome maps to the response status. -/
def sendEmail (pr : ProviderResp) (req : EmailReq) : HResult :=
  if !(truthy req.toAddr && truthy req.subject && truthy req.text) then ⟨400, [], none⟩
  else
    let toA := sanitizeInput (req.toAddr.getD "")
    let subject := sanitizeInput (req.subject.getD "")
    let text := sanitizeInput (req.text.getD "")
    let rt : Option String :=
      if truthy req.replyTo then some (sanitizeInput (req.replyTo.getD "")) else none
    if !validateEmail toA then ⟨400, [], none⟩
    else if 200 < subject.length then ⟨400, [], none⟩
    else if 10000 < text.length then ⟨400, [], none⟩
    else if (match rt with
             | some r => !r.isEmpty && !validateEmail r
             | none => false) then ⟨400, [], none⟩
    else if suspicious text.data || suspicious subject.data then ⟨400, [], none⟩
    else
      ⟨if pr.ok then 200 else pr.status,
       [Eff.provider toA (escapeHtml subject) (escapeHtml text)
          (match rt with
           | some r => if r.isEmpty then none else some r
           | none => none)], none⟩

/-- ASCII lowercase letters, digits and hyphen: the characters kept by
the save-post slug replacement. -/
def isSlugChar (c : Char) : Bool :=
  let n := c.toNat
  (97 ≤ n && n ≤ 122) || (48 ≤ n && n ≤ 57) || n == 45

/-- Global replacement of runs of hyphens by a single hyphen. -/
def collapseDash : List Char → List Char
  | [] => []
  | [c] => [c]
  | a :: b :: r =>
    if a == '-' && b == '-' then collapseDash (b :: r)
    else a :: collapseDash (b :: r)

/-- The save-post slug derivation: lowercase, replace characters
outside lowercase alphanumerics and hyphen by a hyphen, collapse hyphen
runs, and fall back to the string post when empty. -/
def mkSafeSlug (s : String) : String :=
  let l := collapseDash ((s.data.map lowerAscii).map
    (fun c => if isSlugChar c then c else '-'))
  if l.isEmpty then "post" else String.mk l

/-- First n characters of a string (String.prototype.slice on the
basic multilingual plane). -/
def takeS (n : Nat) (s : String) : String := String.mk (s.data.take n)

/-- The ten-character date prefix used by save-post. -/
def dateStrOf (req : PostReq) : String := takeS 10 (jsTrim (req.date.getD ""))

/-- The normalized slug of a save-post request. -/
def slugOf (req : PostReq) : String := mkSafeSlug (req.slug.getD "")

/-- The storage path of the Markdown document written by save-post. -/
def postPathOf (req : PostReq) : String :=
  "_posts/" ++ dateStrOf req ++ "-" ++ slugOf req ++ ".md"

/-- Removal of one leading dot from a declared image extension. -/
def stripLeadDot (s : String) : String :=
  match s.data with
  | c :: r => if c == '.' then String.mk r else s
  | [] => s

/-- ASCII lowercasing of a string. -/
def lowerStr (s : String) : String := String.mk (s.data.map lowerAscii)

/-- The declared image extension after normalization, defaulting to
jpg when no payload or no extension is supplied. -/
def extOf (img : Option ImgPayload) : String :=
  match img with
  | some ip =>
    match ip.extension with
    | some e => if e.isEmpty then "jpg" else lowerStr (stripLeadDot e)
    | none => "jpg"
  | none => "jpg"

/-- Whether an image payload with a truthy data field is present. -/
def hasImgData (img : Option ImgPayload) : Bool :=
  match img with
  | some ip => truthy ip.data
  | none => false

/-- The base64 data of the image payload when present. -/
def imgDataOf (img : Option ImgPayload) : Option String :=
  match img with
  | some ip => ip.data
  | none => none

/-- Sequential escaping of backslash, double quote and newline used
inside double-quoted YAML scalars by both persistence handlers. -/
def escJsStr (l : List Char) : List Char :=
  l.foldr (fun c acc =>
    (if c == '\\' then "\\\\".data
     else if c == '"' then "\\\"".data
     else if c == '\n' then "\\n".data
     else [c]) ++ acc) []

/-- escapeYaml from the save-post handler: trim, and double-quote when
the value contains a colon, double quote, newline or single quote. -/
def escapeYaml (s : String) : String :=
  let t := jsTrimL s.data
  if t.isEmpty then ""
  else if t.any (fun c => c == ':' || c == '"' || c == '\n' || c == '\'') then
    "\"" ++ String.mk (escJsStr t) ++ "\""
  else String.mk t

/-- The front matter lines of the Markdown document built by
save-post, in order. -/
def frontMatterOf (req : PostReq) : List String :=
  ["layout: post",
   "title: " ++ escapeYaml (req.title.getD ""),
   "date: " ++ dateStrOf req]
  ++ (if hasImgData req.image then
        ["image: /img/programs/blog_" ++ slugOf req ++ "." ++ extOf req.image]
      else [])
  ++ ["excerpt: " ++ escapeYaml (req.excerpt.getD ""),
      "permalink: /blog/" ++ slugOf req ++ ".html"]
  ++ (if !(jsTrimL (req.igLink.getD "").data).isEmpty then
        ["ig_link: " ++ jsTrim (req.igLink.getD "")]
      else [])

/-- The full Markdown document written by save-post. -/
def markdownOf (req : PostReq) : String :=
  "---\n" ++ String.intercalate "\n" (frontMatterOf req) ++ "\n---\n\n"
  ++ jsTrim (req.content.getD "") ++ "\n"

/-- The image extension allowlist shared by both persistence
handlers. -/
def allowedExt (e : String) : Bool :=
  e == "jpg" || e == "jpeg" || e == "png" || e == "gif" || e == "webp"

/-- The four-mebibyte cap on decoded image payloads. -/
def imgCap : Nat := 4194304

/-- The image path written by save-post. -/
def postImgPathOf (req : PostReq) : String :=
  "img/programs/blog_" ++ slugOf req ++ "." ++ extOf req.image

/-- The save-post handler on a POST request with configuration
present: required-field check, then fetch-and-write of the Markdown
document, then image validation and fetch-and-write of the image. The
dec argument is the decoded byte length of a base64 payload, none for
a failed decode. -/
def savePost (st : Store) (dec : String → Option Nat) (req : PostReq) : HResult :=
  if !(truthy req.title && truthy req.date && truthy req.slug &&
       truthy req.excerpt && !req.content.isNone) then ⟨400, [], none⟩
  else
    let pPath := postPathOf req
    let md := markdownOf req
    let e1 : List Eff := [Eff.fetch pPath, Eff.put pPath (st.sha pPath) (WContent.text md)]
    if !st.putOk pPath then ⟨500, e1, none⟩
    else if hasImgData req.image then
      if !allowedExt (extOf req.image) then ⟨400, e1, none⟩
      else
        match dec ((imgDataOf req.image).getD "") with
        | none => ⟨400, e1, none⟩
        | some n =>
          if imgCap < n then ⟨400, e1, none⟩
          else
            let iPath := postImgPathOf req
            let e2 := e1 ++ [Eff.fetch iPath, Eff.put iPath (st.sha iPath) WContent.bin]
            if !st.putOk iPath then ⟨500, e2, none⟩
            else ⟨200, e2, some pPath⟩
    else ⟨200, e1, some pPath⟩

/-- The path of the testimonials list document. -/
def tPath : String := "_data/testimonials.yml"

/-- Characters kept by the testimonial slug: ASCII alphanumerics,
underscore, hyphen and the CJK unified ideographs block. -/
def isTSlugChar (c : Char) : Bool :=
  let n := c.toNat
  (97 ≤ n && n ≤ 122) || (65 ≤ n && n ≤ 90) || (48 ≤ n && n ≤ 57) ||
  n == 95 || n == 45 || (0x4E00 ≤ n && n ≤ 0x9FFF)

/-- Global replacement of whitespace runs by a single underscore,
tracking whether the previous character was whitespace. -/
def wsToUnderscore : Bool → List Char → List Char
  | _, [] => []
  | prev, c :: r =>
    if isJsWhite c then
      if prev then wsToUnderscore true r else '_' :: wsToUnderscore true r
    else c :: wsToUnderscore false r

/-- The testimonial slug: whitespace to underscores, disallowed
characters removed, truncated to thirty characters, with the fallback
value testimonial when empty. -/
def tSlug (name : String) : String :=
  let l := ((wsToUnderscore false name.data).filter isTSlugChar).take 30
  if l.isEmpty then "testimonial" else String.mk l

/-- Characters forcing double quoting in escapeYamlValue: colon,
double quote, hash, square brackets, curly braces, pipe, greater-than
and asterisk, written by code point. -/
def isYamlSpecialV (c : Char) : Bool :=
  let n := c.toNat
  n == 58 || n == 34 || n == 35 || n == 91 || n == 93 || n == 123 ||
  n == 125 || n == 124 || n == 62 || n == 42

/-- escapeYamlValue from the testimonial handler. -/
def escapeYamlValue (s : String) : String :=
  let t := jsTrimL s.data
  if t.isEmpty then ""
  else if t.any (fun c => isYamlSpecialV c || c == '\'') then
    "\"" ++ String.mk (escJsStr t) ++ "\""
  else String.mk t

/-- Split on a newline optionally preceded by a carriage return. -/
def splitLinesRN : List Char → List (List Char)
  | [] => [[]]
  | '\r' :: '\n' :: r => [] :: splitLinesRN r
  | '\n' :: r => [] :: splitLinesRN r
  | c :: r =>
    match splitLinesRN r with
    | [] => [[c]]
    | h :: t => (c :: h) :: t

/-- contentBlock from the testimonial handler: a literal block with
two-space indented lines for multi-line content, otherwise the scalar
produced by escapeYamlValue. -/
def contentBlockF (s : String) : String :=
  let t := jsTrimL s.data
  if t.isEmpty then ""
  else if t.contains '\n' then
    "|\n" ++ String.intercalate "\n"
      ((splitLinesRN t).map (fun ln => "  " ++ String.mk ln))
  else escapeYamlValue s

/-- The fallback instagram link of the testimonial handler. -/
def defaultIg : String := "https://www.instagram.com/givespower.health"

/-- The instagram field value: the escaped submitted link when its
trimmed value is nonempty, else the fallback. -/
def igFieldOf (instagram : Option String) : String :=
  match instagram with
  | some ig => if (jsTrimL ig.data).isEmpty then defaultIg else escapeYamlValue ig
  | none => defaultIg

/-- The image reference recorded inside the YAML entry. -/
def tImgYamlPath (req : TReq) : String :=
  if hasImgData req.image then
    "/img/testimonials/" ++ tSlug (req.name.getD "") ++ "." ++ extOf req.image
  else "/img/testimonials/default.jpg"

/-- The YAML entry appended for one testimonial submission, starting
with the newline that separates it from the existing document. -/
def tEntryOf (req : TReq) : String :=
  "\n- name: " ++ escapeYamlValue (req.name.getD "")
  ++ "\n  image: " ++ tImgYamlPath req
  ++ "\n  category: " ++ escapeYamlValue (req.category.getD "")
  ++ "\n  content: " ++ contentBlockF (req.content.getD "")
  ++ "\n  instagram: " ++ igFieldOf req.instagram

/-- The new testimonials document: the old document with trailing
whitespace trimmed, one appended entry, and a final newline. -/
def tNewYaml (old : String) (req : TReq) : String :=
  jsTrimEnd old ++ tEntryOf req ++ "\n"

/-- The repository path of the testimonial image file. -/
def tImgPathOf (req : TReq) : String :=
  "img/testimonials/" ++ tSlug (req.name.getD "") ++ "." ++ extOf req.image

/-- The save-testimonial handler on a POST request with configuration
present: required-field check, fetch of the list document, write of
the appended document, then image validation and a fetch-and-write of
the image whose failure does not change the response. -/
def saveTestimonial (st : Store) (dec : String → Option Nat) (req : TReq) : HResult :=
  if !(truthy req.name && truthy req.category && !req.content.isNone) then ⟨400, [], none⟩
  else
    let old := (st.content tPath).getD ""
    let newYaml := tNewYaml old req
    let e1 : List Eff := [Eff.fetch tPath, Eff.put tPath (st.sha tPath) (WContent.text newYaml)]
    if !st.putOk tPath then ⟨500, e1, none⟩
    else if hasImgData req.image then
      if !allowedExt (extOf req.image) then ⟨400, e1, none⟩
      else
        match dec ((imgDataOf req.image).getD "") with
        | none => ⟨400, e1, none⟩
        | some n =>
          if imgCap < n then ⟨400, e1, none⟩
          else
            let iPath := tImgPathOf req
            ⟨200, e1 ++ [Eff.fetch iPath, Eff.put iPath (st.sha iPath) WContent.bin], none⟩
    else ⟨200, e1, none⟩

/-- Exact substring test. -/
def startsWithL : List Char → List Char → Bool
  | [], _ => true
  | _ :: _, [] => false
  | a :: ps, b :: ls => (a == b) && startsWithL ps ls

/-- Whether the first list occurs as a contiguous substring of the
second. -/
def subStr (p : List Char) : List Char → Bool
  | [] => startsWithL p []
  | c :: r => startsWithL p (c :: r) || subStr p r

/-! Helper lemmas about trimming, filtering and the slug collapse. -/

/-- The head of a dropWhile result falsifies the predicate. -/
theorem dropWhile_head_false (p : Char → Bool) (l : List Char) (c : Char) (u : List Char)
    (h : l.dropWhile p = c :: u) : p c = false := by
  have hh := List.head?_dropWhile_not p l
  rw [h] at hh
  simpa using hh

/-- dropWhile is idempotent. -/
theorem dropWhile_idem (p : Char → Bool) (l : List Char) :
    (l.dropWhile p).dropWhile p = l.dropWhile p := by
  cases h : l.dropWhile p with
  | nil => simp
  | cons c u =>
    have hc := dropWhile_head_false p l c u h
    simp [hc]

/-- Trailing-whitespace trimming is idempotent. -/
theorem rtrimL_idem (l : List Char) : rtrimL (rtrimL l) = rtrimL l := by
  simp [rtrimL, List.reverse_reverse, dropWhile_idem]

/-- A trimEnd result is empty or ends in a non-whitespace character. -/
theorem rtrimL_ends (l : List Char) :
    rtrimL l = [] ∨ ∃ e c, rtrimL l = e ++ [c] ∧ isJsWhite c = false := by
  cases h : l.reverse.dropWhile isJsWhite with
  | nil => left; simp [rtrimL, h]
  | cons c u =>
    right
    refine ⟨u.reverse, c, ?_, dropWhile_head_false _ _ _ _ h⟩
    simp [rtrimL, h]

/-- A nonempty trim result ends in a non-whitespace character. -/
theorem jsTrimL_ends (l : List Char) (h : jsTrimL l ≠ []) :
    ∃ e c, jsTrimL l = e ++ [c] ∧ isJsWhite c = false := by
  rcases rtrimL_ends l with hr | ⟨e, c, he, hc⟩
  · exact absurd (by simp [jsTrimL, hr, ltrimL]) h
  · rcases List.eq_nil_or_concat (jsTrimL l) with h0 | ⟨L, b, hL⟩
    · exact absurd h0 h
    · have hLb : jsTrimL l = L ++ [b] := by simpa [List.concat_eq_append] using hL
      have hsplit : (rtrimL l).takeWhile isJsWhite ++ jsTrimL l = rtrimL l :=
        List.takeWhile_append_dropWhile isJsWhite (rtrimL l)
      have hglast : ((rtrimL l).takeWhile isJsWhite ++ (L ++ [b])).getLast? = (e ++ [c]).getLast? := by
        rw [← hLb, hsplit, he]
      have hb : b = c := by
        have h1 : ((rtrimL l).takeWhile isJsWhite ++ L ++ [b]).getLast? = some b :=
          List.getLast?_concat _
        have h2 : (e ++ [c]).getLast? = some c := List.getLast?_concat _
        rw [List.append_assoc] at h1
        rw [h1, h2] at hglast
        exact Option.some.inj hglast
      exact ⟨L, b, hLb, hb ▸ hc⟩

/-- Membership is preserved from a trimEnd result into the source. -/
theorem mem_rtrimL (a : Char) (l : List Char) (h : a ∈ rtrimL l) : a ∈ l := by
  rw [rtrimL, List.mem_reverse] at h
  exact List.mem_reverse.mp ((List.dropWhile_sublist isJsWhite).subset h)

/-- Membership is preserved from a trim result into the source. -/
theorem mem_jsTrimL (a : Char) (l : List Char) (h : a ∈ jsTrimL l) : a ∈ l :=
  mem_rtrimL a l ((List.dropWhile_sublist isJsWhite).subset h)

/-- Appending a single newline after content with a solid last
character and trimming trailing whitespace recovers the content. -/
theorem rtrimL_snoc_nl (x e : List Char) (c : Char) (hc : isJsWhite c = false) :
    rtrimL (x ++ (e ++ [c]) ++ ['\n']) = x ++ (e ++ [c]) := by
  have hnl : isJsWhite '\n' = true := by decide
  simp [rtrimL, List.reverse_append, List.dropWhile, hnl, hc]

/-- The trim of an already end-trimmed list is itself end-trimmed. -/
theorem rtrimL_ltrimL_of_rtrimmed (m : List Char) (hm : rtrimL m = m) :
    rtrimL (ltrimL m) = ltrimL m := by
  cases h : ltrimL m with
  | nil => simp [rtrimL, h]
  | cons a t =>
    have hz : m.reverse.dropWhile isJsWhite = m.reverse := by
      have h2 := congrArg List.reverse hm
      rwa [rtrimL, List.reverse_reverse] at h2
    obtain ⟨b, u, hbu⟩ : ∃ b u, m.reverse = b :: u := by
      cases hr : m.reverse with
      | nil =>
        have hmnil : m = [] := List.reverse_eq_nil_iff.mp hr
        rw [hmnil] at h
        simp [ltrimL] at h
      | cons b u => exact ⟨b, u, rfl⟩
    rw [hbu] at hz
    have hb : isJsWhite b = false := dropWhile_head_false isJsWhite (b :: u) b u hz
    have hsplit : m.takeWhile isJsWhite ++ (a :: t) = m := by
      have h2 := List.takeWhile_append_dropWhile isJsWhite m
      rw [show m.dropWhile isJsWhite = a :: t from h] at h2
      exact h2
    have hrev : (a :: t).reverse ++ (m.takeWhile isJsWhite).reverse = b :: u := by
      rw [← List.reverse_append, hsplit, hbu]
    obtain ⟨bb, vv, hat⟩ : ∃ bb vv, (a :: t).reverse = bb :: vv := by
      cases hat : (a :: t).reverse with
      | nil =>
        have hl := congrArg List.length hat
        simp at hl
      | cons bb vv => exact ⟨bb, vv, rfl⟩
    have hbb : bb = b := by
      rw [hat, List.cons_append] at hrev
      exact (List.cons.injEq _ _ _ _ ▸ hrev).1
    have hwsbb : isJsWhite bb = false := hbb ▸ hb
    rw [rtrimL, hat]
    simp only [List.dropWhile_cons, hwsbb]
    simp only [Bool.false_eq_true, if_false]
    rw [← hat, List.reverse_reverse]

/-- Trimming on both sides is idempotent. -/
theorem jsTrimL_idem (l : List Char) : jsTrimL (jsTrimL l) = jsTrimL l := by
  show ltrimL (rtrimL (ltrimL (rtrimL l))) = ltrimL (rtrimL l)
  rw [rtrimL_ltrimL_of_rtrimmed (rtrimL l) (rtrimL_idem l)]
  exact dropWhile_idem isJsWhite (rtrimL l)

/-- Filtering out control characters fixes a list that has none. -/
theorem stripCtrl_fix (l : List Char) (h : ∀ a ∈ l, isRemovedCtrl a = false) :
    stripCtrl l = l := by
  apply List.filter_eq_self.mpr
  intro a ha
  simp [h a ha]

/-- The sanitizer output contains no removed control characters. -/
theorem sanitizeL_noCtrl (d : List Char) :
    ∀ a ∈ sanitizeL d, isRemovedCtrl a = false := by
  intro a ha
  have h2 : a ∈ stripCtrl (stripOn (stripJs (stripTags d))) := mem_jsTrimL a _ ha
  have h3 := (List.mem_filter.mp h2).2
  simpa using h3

/-- Elements of the collapsed list come from the source list. -/
theorem mem_collapseDash : ∀ (l : List Char), ∀ a ∈ collapseDash l, a ∈ l
  | [] => by simp [collapseDash]
  | [c] => by simp [collapseDash]
  | a :: b :: r => by
    intro x hx
    by_cases h : (a == '-' && b == '-') = true
    · rw [collapseDash, if_pos h] at hx
      exact List.mem_cons_of_mem a (mem_collapseDash (b :: r) x hx)
    · rw [collapseDash, if_neg h] at hx
      rcases List.mem_cons.mp hx with h1 | h1
      · exact h1 ▸ List.mem_cons_self x _
      · exact List.mem_cons_of_mem a (mem_collapseDash (b :: r) x h1)

/-- The collapse keeps the head of a nonempty list. -/
theorem collapseDash_cons : ∀ (b : Char) (r : List Char),
    ∃ t, collapseDash (b :: r) = b :: t
  | _, [] => ⟨[], rfl⟩
  | b, b2 :: r2 => by
    by_cases h : (b == '-' && b2 == '-') = true
    · obtain ⟨t, ht⟩ := collapseDash_cons b2 r2
      have hb : b = '-' := by
        have := (Bool.and_eq_true _ _ ▸ h).1
        exact eq_of_beq this
      have hb2 : b2 = '-' := by
        have := (Bool.and_eq_true _ _ ▸ h).2
        exact eq_of_beq this
      exact ⟨t, by rw [collapseDash, if_pos h, ht, hb, hb2]⟩
    · exact ⟨collapseDash (b2 :: r2), by rw [collapseDash, if_neg h]⟩

/-- No two adjacent hyphens survive. -/
def noDD : List Char → Bool
  | a :: b :: r => !(a == '-' && b == '-') && noDD (b :: r)
  | _ => true

/-- The hyphen collapse leaves no adjacent hyphens. -/
theorem noDD_collapseDash : ∀ (l : List Char), noDD (collapseDash l) = true
  | [] => rfl
  | [_] => rfl
  | a :: b :: r => by
    by_cases h : (a == '-' && b == '-') = true
    · rw [collapseDash, if_pos h]
      exact noDD_collapseDash (b :: r)
    · rw [collapseDash, if_neg h]
      obtain ⟨t, ht⟩ := collapseDash_cons b r
      rw [ht]
      have hr := noDD_collapseDash (b :: r)
      rw [ht] at hr
      show (!(a == '-' && b == '-') && noDD (b :: t)) = true
      rw [hr]
      have hf : (a == '-' && b == '-') = false := Bool.eq_false_iff.mpr h
      simp [hf]

/-- String append respects the data projection; restated for rewriting
without unfolding String internals. -/
theorem dataStr (l : List Char) : (String.mk l).data = l := rfl

/-- The data of jsTrimEnd is the end-trimmed data. -/
theorem data_jsTrimEnd (s : String) : (jsTrimEnd s).data = rtrimL s.data := rfl

/-- A string whose trimmed data is nonempty decomposes with a solid
last character after trimming. -/
theorem eyv_ends (s : String) (h : (jsTrimL s.data).isEmpty = false) :
    ∃ e c, (escapeYamlValue s).data = e ++ [c] ∧ isJsWhite c = false := by
  rw [escapeYamlValue]
  simp only [h, Bool.false_eq_true, if_false]
  by_cases hq : (jsTrimL s.data).any (fun c => isYamlSpecialV c || c == '\'') = true
  · rw [if_pos hq]
    refine ⟨("\"" ++ String.mk (escJsStr (jsTrimL s.data))).data, '"', ?_, by decide⟩
    rw [String.data_append]
  · rw [if_neg hq]
    have hne : jsTrimL s.data ≠ [] := by
      intro h0
      rw [h0] at h
      simp at h
    obtain ⟨e, c, he, hc⟩ := jsTrimL_ends s.data hne
    exact ⟨e, c, by rw [dataStr, he], hc⟩

/-- The instagram field always ends in a solid character. -/
theorem igField_ends (o : Option String) :
    ∃ e c, (igFieldOf o).data = e ++ [c] ∧ isJsWhite c = false := by
  have hdef : ∃ e c, defaultIg.data = e ++ [c] ∧ isJsWhite c = false := by
    refine ⟨"https://www.instagram.com/givespower.healt".data, 'h', ?_, by decide⟩
    decide
  match o with
  | none => exact hdef
  | some ig =>
    rw [igFieldOf]
    by_cases h : (jsTrimL ig.data).isEmpty = true
    · rw [if_pos h]; exact hdef
    · rw [if_neg h]
      exact eyv_ends ig (Bool.eq_false_iff.mpr h)

/-- The appended testimonial entry always ends in a solid character. -/
theorem tEntry_ends (req : TReq) :
    ∃ e c, (tEntryOf req).data = e ++ [c] ∧ isJsWhite c = false := by
  obtain ⟨e, c, he, hc⟩ := igField_ends req.instagram
  refine ⟨("\n- name: " ++ escapeYamlValue (req.name.getD "")
    ++ "\n  image: " ++ tImgYamlPath req
    ++ "\n  category: " ++ escapeYamlValue (req.category.getD "")
    ++ "\n  content: " ++ contentBlockF (req.content.getD "")
    ++ "\n  instagram: ").data ++ e, c, ?_, hc⟩
  rw [tEntryOf, String.data_append, he, List.append_assoc]

/-! Concrete fixtures used by witnesses and counterexamples. -/

/-- A store whose fetches find nothing and whose writes succeed. -/
def stTrue : Store := ⟨fun _ => none, fun _ => none, fun _ => true⟩

/-- A decode oracle that always fails; never consulted in the runs
that use it. -/
def decNone : String → Option Nat := fun _ => none

/-- A decode oracle reporting one byte over the image cap. -/
def decBig : String → Option Nat := fun _ => some 4194305

/-- A decode oracle reporting a small decoded size. -/
def decSmall : String → Option Nat := fun _ => some 100

/-- A provider oracle that accepts the send. -/
def prOk : ProviderResp := ⟨true, 200⟩

/-- The end-to-end save-post request of the specification. -/
def reqHello : PostReq :=
  ⟨some "Hello", some "2024-01-02", some "Hello World", some "x", some "body", none, none⟩

/-- The email request of the specification example, with a script tag
in the body. -/
def reqScript : EmailReq :=
  ⟨some "a@b.co", some "hi", some "<script>alert(1)</script>", none⟩

/-- An email request whose body keeps a denylisted pattern after
sanitization. -/
def reqVbs : EmailReq := ⟨some "a@b.co", some "hi", some "vbscript:x", none⟩

/-! Claim theorems. -/

/-- C3 counterexample: sanitizeInput is not idempotent; removing the
javascript: pattern from this input splices a fresh occurrence that
only a second application removes. -/
theorem sanitizeInput_not_idem_cex :
    sanitizeInput "javajavascript:script:" = "javascript:" ∧
    sanitizeInput (sanitizeInput "javajavascript:script:") ≠
      sanitizeInput "javajavascript:script:" := by decide

/-- C3 amended: sanitizeInput is idempotent on every input whose
sanitized form is a fixed point of the three pattern removals, that
is, whose sanitized form contains no complete HTML tag, no
javascript: occurrence and no inline-event-handler pattern; control
stripping and trimming never disturb such a fixed point. -/
theorem sanitizeInput_idem_of_clean (s : String)
    (h1 : stripTags (sanitizeL s.data) = sanitizeL s.data)
    (h2 : stripJs (sanitizeL s.data) = sanitizeL s.data)
    (h3 : stripOn (sanitizeL s.data) = sanitizeL s.data) :
    sanitizeInput (sanitizeInput s) = sanitizeInput s := by
  apply String.ext
  simp only [sanitizeInput, dataStr]
  conv_lhs => rw [sanitizeL]
  rw [h1, h2, h3, stripCtrl_fix (sanitizeL s.data) (sanitizeL_noCtrl s.data)]
  simp only [sanitizeL]
  exact jsTrimL_idem _

/-- C3 witness: a concrete sanitized fixed point on which the amended
idempotence theorem applies. -/
theorem sanitizeInput_idem_of_clean_witness :
    stripTags (sanitizeL "hello world".data) = sanitizeL "hello world".data ∧
    sanitizeInput (sanitizeInput "hello world") = sanitizeInput "hello world" :=
  ⟨by decide, sanitizeInput_idem_of_clean "hello world" (by decide) (by decide) (by decide)⟩

/-- C4 counterexample: the slug of the specification example keeps a
trailing hyphen because the trailing run of exclamation marks is
collapsed to a hyphen, not removed. -/
theorem safeSlug_example_cex :
    mkSafeSlug "My Great Post!!" ≠ "my-great-post" ∧
    mkSafeSlug "My Great Post!!" = "my-great-post-" := by decide

/-- C4 amended: slug derivation is deterministic, produces only
lowercase alphanumerics and hyphens, collapses every run of
non-alphanumeric characters to a single hyphen so that no two
adjacent hyphens remain, and maps the example to my-great-post- with
its trailing hyphen kept. -/
theorem safeSlug_shape :
    (∀ s : String, (mkSafeSlug s).data.all isSlugChar = true ∧
      noDD (mkSafeSlug s).data = true) ∧
    mkSafeSlug "My Great Post!!" = "my-great-post-" := by
  constructor
  · intro s
    rw [mkSafeSlug]
    by_cases h : (collapseDash ((s.data.map lowerAscii).map
        (fun c => if isSlugChar c then c else '-'))).isEmpty = true
    · rw [if_pos h]
      exact ⟨by decide, by decide⟩
    · rw [if_neg h]
      constructor
      · rw [dataStr]
        apply List.all_eq_true.mpr
        intro x hx
        have hx2 := mem_collapseDash _ x hx
        obtain ⟨a, _, ha⟩ := List.mem_map.mp hx2
        by_cases hc : isSlugChar a = true
        · rw [if_pos hc] at ha
          exact ha ▸ hc
        · rw [if_neg hc] at ha
          rw [← ha]
          decide
      · rw [dataStr]
        exact noDD_collapseDash _
  · decide

/-- C1 counterexample: the end-to-end example request succeeds, but
the computed storage path carries the leading underscore directory
and the Markdown extension, so it is not the claimed value. -/
theorem savePost_path_cex :
    (savePost stTrue decNone reqHello).status = 200 ∧
    (savePost stTrue decNone reqHello).path = some "_posts/2024-01-02-hello-world.md" ∧
    (savePost stTrue decNone reqHello).path ≠ some "posts/2024-01-02-hello-world" := by
  decide

/-- C1 amended: a valid save-post request without image yields 200, a
reported path of the form _posts/(date)-(slug).md, and one fetch and
one write of the Markdown document at that path; the example request
maps to _posts/2024-01-02-hello-world.md and its stored document
contains the title and date header lines. -/
theorem savePost_ok_path_and_header :
    (∀ (st : Store) (dec : String → Option Nat) (req : PostReq),
      truthy req.title = true → truthy req.date = true → truthy req.slug = true →
      truthy req.excerpt = true → req.content.isNone = false → req.image = none →
      st.putOk (postPathOf req) = true →
      savePost st dec req =
        ⟨200, [Eff.fetch (postPathOf req),
               Eff.put (postPathOf req) (st.sha (postPathOf req))
                 (WContent.text (markdownOf req))],
         some (postPathOf req)⟩) ∧
    (postPathOf reqHello = "_posts/2024-01-02-hello-world.md" ∧
     subStr "title: Hello".data (markdownOf reqHello).data = true ∧
     subStr "date: 2024-01-02".data (markdownOf reqHello).data = true) := by
  constructor
  · intro st dec req h1 h2 h3 h4 h5 himg hput
    rw [savePost]
    simp only [h1, h2, h3, h4, h5, himg, hput, hasImgData, Bool.not_false, Bool.and_self,
      Bool.and_true, Bool.true_and, Bool.not_true, Bool.false_eq_true, if_false]
  · exact ⟨by decide, by decide, by decide⟩

/-- C1 witness: the amended theorem applied to the example request
against a store with empty fetches and successful writes. -/
theorem savePost_ok_path_and_header_witness :
    savePost stTrue decNone reqHello =
      ⟨200, [Eff.fetch (postPathOf reqHello),
             Eff.put (postPathOf reqHello) none (WContent.text (markdownOf reqHello))],
       some (postPathOf reqHello)⟩ :=
  savePost_ok_path_and_header.1 stTrue decNone reqHello (by decide) (by decide)
    (by decide) (by decide) (by decide) rfl rfl

/-- C2 counterexample: the body of the specification example contains
the script-tag denylist pattern, yet the handler strips the tags
during sanitization before the denylist test, reaches the provider
call and returns 200. -/
theorem sendEmail_script_cex :
    suspicious "<script>alert(1)</script>".data = true ∧
    (sendEmail prOk reqScript).status = 200 ∧
    (sendEmail prOk reqScript).effects ≠ [] := by decide

/-- C2 amended: whenever the sanitized body or sanitized subject still
contains a denylisted pattern, the email handler returns 400 with no
provider call; the denylist is tested after sanitization, so patterns
that sanitization removes do not trigger the rejection. -/
theorem sendEmail_suspicious_rejected (pr : ProviderResp) (req : EmailReq)
    (h : (suspicious (sanitizeInput (req.text.getD "")).data ||
          suspicious (sanitizeInput (req.subject.getD "")).data) = true) :
    sendEmail pr req = ⟨400, [], none⟩ := by
  simp only [sendEmail]
  split_ifs <;> rfl

/-- C2 witness: a body that keeps the vbscript: pattern after
sanitization is rejected without a provider call. -/
theorem sendEmail_suspicious_rejected_witness :
    sendEmail prOk reqVbs = ⟨400, [], none⟩ :=
  sendEmail_suspicious_rejected prOk reqVbs (by decide)

/-- C5: a request missing a required field is rejected with 400 by
each of the three handlers before any outbound call: the effect trace
of the response is empty. -/
theorem missing_field_rejected_before_calls :
    (∀ (pr : ProviderResp) (req : EmailReq),
      truthy req.toAddr = false ∨ truthy req.subject = false ∨ truthy req.text = false →
      sendEmail pr req = ⟨400, [], none⟩) ∧
    (∀ (st : Store) (dec : String → Option Nat) (req : PostReq),
      truthy req.title = false ∨ truthy req.date = false ∨ truthy req.slug = false ∨
      truthy req.excerpt = false ∨ req.content = none →
      savePost st dec req = ⟨400, [], none⟩) ∧
    (∀ (st : Store) (dec : String → Option Nat) (req : TReq),
      truthy req.name = false ∨ truthy req.category = false ∨ req.content = none →
      saveTestimonial st dec req = ⟨400, [], none⟩) := by
  refine ⟨?_, ?_, ?_⟩
  · intro pr req h
    rw [sendEmail]
    rcases h with h | h | h <;> simp [h]
  · intro st dec req h
    rw [savePost]
    rcases h with h | h | h | h | h <;> simp [h]
  · intro st dec req h
    rw [saveTestimonial]
    rcases h with h | h | h <;> simp [h]

/-- C5 witness: one concrete missing-field request per handler. -/
theorem missing_field_rejected_before_calls_witness :
    sendEmail prOk ⟨none, some "s", some "t", none⟩ = ⟨400, [], none⟩ ∧
    savePost stTrue decNone ⟨some "T", none, some "s", some "e", some "c", none, none⟩ =
      ⟨400, [], none⟩ ∧
    saveTestimonial stTrue decNone ⟨some "N", some "c", none, none, none⟩ =
      ⟨400, [], none⟩ :=
  ⟨missing_field_rejected_before_calls.1 prOk _ (Or.inl rfl),
   missing_field_rejected_before_calls.2.1 stTrue decNone _ (Or.inr (Or.inl rfl)),
   missing_field_rejected_before_calls.2.2 stTrue decNone _ (Or.inr (Or.inr rfl))⟩

/-- C6: the testimonial document is append-only. Every valid
submission writes the old document with trailing whitespace trimmed
followed by exactly one new entry and a final newline; composing two
submissions, with equal names allowed, yields the original trimmed
document followed by the two distinct entries in order, so nothing is
overwritten. -/
theorem testimonial_append_only :
    (∀ (st : Store) (dec : String → Option Nat) (req : TReq),
      truthy req.name = true → truthy req.category = true → req.content.isNone = false →
      (saveTestimonial st dec req).effects.take 2 =
        [Eff.fetch tPath,
         Eff.put tPath (st.sha tPath)
           (WContent.text (jsTrimEnd ((st.content tPath).getD "") ++ tEntryOf req ++ "\n"))]) ∧
    (∀ (old : String) (r1 r2 : TReq),
      tNewYaml (tNewYaml old r1) r2 =
        jsTrimEnd old ++ tEntryOf r1 ++ tEntryOf r2 ++ "\n") := by
  constructor
  · intro st dec req h1 h2 h3
    simp only [saveTestimonial, h1, h2, h3, Bool.not_false, Bool.and_self, Bool.and_true,
      Bool.true_and, Bool.not_true, Bool.false_eq_true, if_false, tNewYaml]
    split_ifs <;> ((try split) <;> (try split_ifs) <;> rfl)
  · intro old r1 r2
    apply String.ext
    obtain ⟨e, c, he, hc⟩ := tEntry_ends r1
    simp only [tNewYaml, String.data_append, data_jsTrimEnd]
    rw [he, rtrimL_snoc_nl (rtrimL old.data) e c hc]

/-- C6 witness: appending one testimonial to a concrete nonempty
document writes the trimmed old document followed by the entry. -/
theorem testimonial_append_only_witness :
    (saveTestimonial ⟨fun _ => none, fun p => if p == tPath then some "- name: A\n" else none,
        fun _ => true⟩ decNone ⟨some "N", some "cat", some "c", none, none⟩).effects.take 2 =
      [Eff.fetch tPath,
       Eff.put tPath none
         (WContent.text (jsTrimEnd "- name: A\n" ++
            tEntryOf ⟨some "N", some "cat", some "c", none, none⟩ ++ "\n"))] :=
  testimonial_append_only.1 _ decNone _ (by decide) (by decide) (by decide)

/-- C7: an image payload whose decoded size exceeds the
four-mebibyte cap makes both persistence handlers answer 400,
whatever the declared extension: a disallowed extension is itself
rejected with 400 before the size test, and an allowed one falls to
the size test. -/
theorem oversize_image_rejected :
    (∀ (st : Store) (dec : String → Option Nat) (req : PostReq) (ip : ImgPayload) (n : Nat),
      (∀ p, st.putOk p = true) → req.image = some ip → truthy ip.data = true →
      dec (ip.data.getD "") = some n → imgCap < n →
      (savePost st dec req).status = 400) ∧
    (∀ (st : Store) (dec : String → Option Nat) (req : TReq) (ip : ImgPayload) (n : Nat),
      (∀ p, st.putOk p = true) → req.image = some ip → truthy ip.data = true →
      dec (ip.data.getD "") = some n → imgCap < n →
      (saveTestimonial st dec req).status = 400) := by
  constructor
  · intro st dec req ip n hput hip hd hdec hn
    simp only [savePost, hip, hput, hasImgData, hd, imgDataOf, hdec, hn, Bool.not_true,
      Bool.false_eq_true, if_false, if_true]
    split_ifs <;> rfl
  · intro st dec req ip n hput hip hd hdec hn
    simp only [saveTestimonial, hip, hput, hasImgData, hd, imgDataOf, hdec, hn, Bool.not_true,
      Bool.false_eq_true, if_false, if_true]
    split_ifs <;> rfl

/-- C7 witness: a decode oracle reporting one byte over the cap makes
both handlers answer 400 on concrete valid requests with a png
extension. -/
theorem oversize_image_rejected_witness :
    (savePost stTrue decBig
      ⟨some "T", some "2024-01-02", some "t", some "e", some "c", none,
       some ⟨some "AAAA", some "png"⟩⟩).status = 400 ∧
    (saveTestimonial stTrue decBig
      ⟨some "N", some "cat", some "c", none, some ⟨some "AAAA", some "png"⟩⟩).status = 400 :=
  ⟨oversize_image_rejected.1 stTrue decBig _ ⟨some "AAAA", some "png"⟩ 4194305
      (fun _ => rfl) rfl (by decide) rfl (by decide),
   oversize_image_rejected.2 stTrue decBig _ ⟨some "AAAA", some "png"⟩ 4194305
      (fun _ => rfl) rfl (by decide) rfl (by decide)⟩

/-- C8: when the testimonial text entry is written successfully and
the image passes extension, decode and size validation, the handler
answers 200 even though the store refuses the image write; the image
write is still attempted, and its failure is swallowed. -/
theorem testimonial_image_failure_swallowed (st : Store) (dec : String → Option Nat)
    (req : TReq) (ip : ImgPayload) (n : Nat)
    (h1 : truthy req.name = true) (h2 : truthy req.category = true)
    (h3 : req.content.isNone = false)
    (hy : st.putOk tPath = true) (_hi : st.putOk (tImgPathOf req) = false)
    (hip : req.image = some ip) (hd : truthy ip.data = true)
    (hext : allowedExt (extOf req.image) = true)
    (hdec : dec (ip.data.getD "") = some n) (hn : n ≤ imgCap) :
    (saveTestimonial st dec req).status = 200 ∧
    Eff.put (tImgPathOf req) (st.sha (tImgPathOf req)) WContent.bin ∈
      (saveTestimonial st dec req).effects := by
  have hn2 : ¬imgCap < n := Nat.not_lt.mpr hn
  rw [hip] at hext
  simp only [saveTestimonial, h1, h2, h3, hy, hip, hasImgData, hd, imgDataOf, hdec, hext,
    hn2, Bool.not_false, Bool.not_true, Bool.and_self, Bool.and_true, Bool.true_and,
    Bool.false_eq_true, if_false, if_true]
  simp

/-- C8 witness: a store that fails exactly the image path still lets
the handler answer 200 with the attempted image write in its trace. -/
theorem testimonial_image_failure_swallowed_witness :
    (saveTestimonial ⟨fun _ => none, fun _ => none, fun p => !(p == "img/testimonials/N.png")⟩
        decSmall ⟨some "N", some "cat", some "c", none, some ⟨some "AAAA", some "png"⟩⟩).status
      = 200 :=
  (testimonial_image_failure_swallowed
    ⟨fun _ => none, fun _ => none, fun p => !(p == "img/testimonials/N.png")⟩
    decSmall ⟨some "N", some "cat", some "c", none, some ⟨some "AAAA", some "png"⟩⟩
    ⟨some "AAAA", some "png"⟩ 100 (by decide) (by decide) (by decide) (by decide)
    (by decide) rfl (by decide) (by decide) rfl (by decide)).1

/-- C9: save-post is not atomic on image validation errors. With
valid text fields and a successful Markdown write, a disallowed
extension, a failed decode or an oversized decode each yield a 400
response whose effect trace already contains the fetch and the write
of the Markdown document. -/
theorem savePost_writes_before_image_reject (st : Store) (dec : String → Option Nat)
    (req : PostReq) (ip : ImgPayload)
    (h1 : truthy req.title = true) (h2 : truthy req.date = true)
    (h3 : truthy req.slug = true) (h4 : truthy req.excerpt = true)
    (h5 : req.content.isNone = false)
    (hput : st.putOk (postPathOf req) = true)
    (hip : req.image = some ip) (hd : truthy ip.data = true)
    (herr : allowedExt (extOf req.image) = false ∨ dec (ip.data.getD "") = none ∨
            ∃ n, dec (ip.data.getD "") = some n ∧ imgCap < n) :
    (savePost st dec req).status = 400 ∧
    (savePost st dec req).effects =
      [Eff.fetch (postPathOf req),
       Eff.put (postPathOf req) (st.sha (postPathOf req)) (WContent.text (markdownOf req))] := by
  rcases herr with he | he | ⟨n, he, hn⟩
  · rw [hip] at he
    simp only [savePost, h1, h2, h3, h4, h5, hput, hip, hasImgData, hd, imgDataOf, he,
      Bool.not_false, Bool.not_true, Bool.and_self, Bool.and_true, Bool.true_and,
      Bool.false_eq_true, if_false, if_true]
    simp
  · simp only [savePost, h1, h2, h3, h4, h5, hput, hip, hasImgData, hd, imgDataOf, he,
      Bool.not_false, Bool.not_true, Bool.and_self, Bool.and_true, Bool.true_and,
      Bool.false_eq_true, if_false, if_true]
    split_ifs <;> simp
  · simp only [savePost, h1, h2, h3, h4, h5, hput, hip, hasImgData, hd, imgDataOf, he, hn,
      Bool.not_false, Bool.not_true, Bool.and_self, Bool.and_true, Bool.true_and,
      Bool.false_eq_true, if_false, if_true]
    split_ifs <;> simp

/-- C9 witness: a bmp extension is rejected only after the Markdown
document has been written. -/
theorem savePost_writes_before_image_reject_witness :
    (savePost stTrue decNone
      ⟨some "T", some "2024-01-02", some "t", some "e", some "c", none,
       some ⟨some "AAAA", some "bmp"⟩⟩).status = 400 :=
  (savePost_writes_before_image_reject stTrue decNone _ ⟨some "AAAA", some "bmp"⟩
    (by decide) (by decide) (by decide) (by decide) (by decide) rfl rfl (by decide)
    (Or.inl (by decide))).1

/-- C10: the testimonial image path is a deterministic function of
the submitted name and extension, so a second same-name submission
targets the same path; and a valid submission with an image performs,
after the text write, a fetch of that path followed by a write to it
carrying exactly the freshly fetched revision marker. -/
theorem testimonial_image_path_deterministic :
    (∀ r1 r2 : TReq, r1.name = r2.name → extOf r1.image = extOf r2.image →
      tImgPathOf r1 = tImgPathOf r2) ∧
    (∀ (st : Store) (dec : String → Option Nat) (req : TReq) (ip : ImgPayload) (n : Nat),
      truthy req.name = true → truthy req.category = true → req.content.isNone = false →
      st.putOk tPath = true → req.image = some ip → truthy ip.data = true →
      allowedExt (extOf req.image) = true → dec (ip.data.getD "") = some n → n ≤ imgCap →
      (saveTestimonial st dec req).effects =
        [Eff.fetch tPath,
         Eff.put tPath (st.sha tPath)
           (WContent.text (tNewYaml ((st.content tPath).getD "") req)),
         Eff.fetch (tImgPathOf req),
         Eff.put (tImgPathOf req) (st.sha (tImgPathOf req)) WContent.bin]) := by
  constructor
  · intro r1 r2 hn he
    rw [tImgPathOf, tImgPathOf, hn, he]
  · intro st dec req ip n h1 h2 h3 hy hip hd hext hdec hn
    have hn2 : ¬imgCap < n := Nat.not_lt.mpr hn
    rw [hip] at hext
    simp only [saveTestimonial, h1, h2, h3, hy, hip, hasImgData, hd, imgDataOf, hdec, hext,
      hn2, Bool.not_false, Bool.not_true, Bool.and_self, Bool.and_true, Bool.true_and,
      Bool.false_eq_true, if_false, if_true]
    simp

/-- C10 witness: two same-name submissions with png images target the
one path img/testimonials/N.png, and the concrete run fetches that
path and writes to it with the fetched marker. -/
theorem testimonial_image_path_deterministic_witness :
    tImgPathOf ⟨some "N", some "cat", some "one", none, some ⟨some "AAAA", some "png"⟩⟩ =
      tImgPathOf ⟨some "N", some "fit", some "two", none, some ⟨some "BBBB", some "png"⟩⟩ ∧
    (saveTestimonial stTrue decSmall
        ⟨some "N", some "cat", some "one", none, some ⟨some "AAAA", some "png"⟩⟩).effects =
      [Eff.fetch tPath,
       Eff.put tPath none
         (WContent.text (tNewYaml ""
            ⟨some "N", some "cat", some "one", none, some ⟨some "AAAA", some "png"⟩⟩)),
       Eff.fetch (tImgPathOf ⟨some "N", some "cat", some "one", none,
          some ⟨some "AAAA", some "png"⟩⟩),
       Eff.put (tImgPathOf ⟨some "N", some "cat", some "one", none,
          some ⟨some "AAAA", some "png"⟩⟩) none WContent.bin] :=
  ⟨testimonial_image_path_deterministic.1 _ _ rfl rfl,
   testimonial_image_path_deterministic.2 stTrue decSmall _ ⟨some "AAAA", some "png"⟩ 100
     (by decide) (by decide) (by decide) rfl rfl (by decide) (by decide) rfl (by decide)⟩

end PTrainer
